import Mathlib

/-!
Verification of the streaming audio segmentation and transcription-dispatch
engine of the Vaani voice-assistant pipeline.

The definitions below are a shallow embedding of the Python sources:

* `StreamingVAD.process_chunk` embeds `StreamingVAD.process_chunk` from
  `pipeline/vad/vad_silero.py` (lines 118-162).  A frame is an abstract
  value of type `α`; the per-frame speech classifier is passed in as the
  function `is_speech : α → Bool` (the Python code calls
  `self.vad.is_speech(audio_chunk)`).  The emitted utterance is modelled as
  the ordered list of buffered frames; `np.concatenate` / `torch.cat`
  preserve exactly this order and content, so frame counts and frame order
  are faithfully represented.
* `SileroVAD.is_speech` embeds `SileroVAD.is_speech` (same file, lines
  42-69), with the possibly-raising model call passed in as an
  `Option (List ℚ → Except String ℚ)` returning the speech probability, and
  the `np.sqrt(np.mean(chunk ** 2)) > 0.01` energy test stated equivalently
  without square roots as `mean(chunk ^ 2) > 0.01 ^ 2` over ℚ (both sides of
  the original comparison are nonnegative).
* `StreamingASR.process_audio`, `StreamingASR.audio_callback_no_vad`,
  `StreamingASR.start` and `StreamingASR.stop` embed the corresponding
  methods of `pipeline/asr/streaming_asr.py`.
-/

namespace Vaani

/-- SegmenterState of `StreamingVAD`: the four mutable attributes set in
`StreamingVAD.__init__` (`is_speaking`, `speech_buffer`, `silence_chunks`,
`speech_chunks_count`).  Frames are abstract values of type `α`. -/
structure VADState (α : Type) where
  is_speaking : Bool
  speech_buffer : List α
  silence_chunks : Nat
  speech_chunks_count : Nat
deriving DecidableEq

namespace StreamingVAD

/-- constant `self.max_silence_chunks = 13` set in `StreamingVAD.__init__`. -/
def max_silence_chunks : Nat := 13

/-- constant `self.min_speech_chunks = 22` set in `StreamingVAD.__init__`. -/
def min_speech_chunks : Nat := 22

/-- initial Segmenter state built by `StreamingVAD.__init__`:
not speaking, empty buffer, zero counters. -/
def initState (α : Type) : VADState α := ⟨false, [], 0, 0⟩

/-- embedding of `StreamingVAD.process_chunk` (vad_silero.py:118-162).
Returns the updated state, the returned status string
(`"speaking"` / `"silence"` / `"ended"`), and the emitted utterance
(`complete_audio`), modelled as the ordered list of buffered frames. -/
def process_chunk {α : Type} (is_speech : α → Bool) (s : VADState α)
    (audio_chunk : α) : VADState α × String × Option (List α) :=
  if is_speech audio_chunk then
    -- speech branch: possibly transition Idle → Speaking, then buffer the frame
    let s1 := if s.is_speaking = false then
      { s with is_speaking := true, speech_chunks_count := 0 } else s
    ({ s1 with
        speech_buffer := s1.speech_buffer ++ [audio_chunk],
        speech_chunks_count := s1.speech_chunks_count + 1,
        silence_chunks := 0 }, "speaking", none)
  else if s.is_speaking then
    -- silence while speaking: count it and buffer the frame regardless
    let s1 := { s with
        silence_chunks := s.silence_chunks + 1,
        speech_buffer := s.speech_buffer ++ [audio_chunk] }
    if max_silence_chunks ≤ s1.silence_chunks then
      if s1.speech_chunks_count < min_speech_chunks then
        -- noise burst: discard the buffer, back to Idle
        (⟨false, [], 0, 0⟩, "silence", none)
      else
        -- speech ended: emit the accumulated buffer, back to Idle
        (⟨false, [], 0, 0⟩, "ended", some s1.speech_buffer)
    else
      (s1, "speaking", none)
  else
    (s, "silence", none)

/-- run of the Segmenter over a list of frames in arrival order, collecting
the emitted utterances (each one the payload of an `"ended"` return). -/
def run {α : Type} (is_speech : α → Bool) (s : VADState α) :
    List α → VADState α × List (List α)
  | [] => (s, [])
  | c :: rest =>
    let out := process_chunk is_speech s c
    let next := run is_speech out.1 rest
    (next.1, match out.2.2 with
             | some u => u :: next.2
             | none => next.2)

/-- length of the trailing run of silence-classified frames of a buffer:
the number of frames at the end of `l` that `is_speech` classifies as
silence.  While Speaking, `silence_chunks` tracks exactly this quantity. -/
def trailing_silence {α : Type} (is_speech : α → Bool) (l : List α) : Nat :=
  (l.reverse.takeWhile (fun a => !is_speech a)).length

/-- reachable-state invariant of the Segmenter: an Idle state is exactly the
initial state, and while Speaking the two counters agree with the buffer
content, the silence counter is below the closing threshold, and the buffer
starts with the speech-classified onset frame. -/
def Inv {α : Type} (f : α → Bool) (s : VADState α) : Prop :=
  (s.is_speaking = false → s = initState α) ∧
  (s.is_speaking = true →
    s.speech_chunks_count = s.speech_buffer.countP f ∧
    s.silence_chunks = trailing_silence f s.speech_buffer ∧
    s.silence_chunks < max_silence_chunks ∧
    ∃ h t, s.speech_buffer = h :: t ∧ f h = true)

end StreamingVAD

/-- absolute value on ℚ written executably (`np.abs` on a sample):
`if x < 0 then -x else x`. -/
def abs_q (x : ℚ) : ℚ := if x < 0 then -x else x

namespace SileroVAD

/-- silence threshold of the energy heuristic (`0.01` in the source). -/
def silence_energy_threshold : ℚ := 1/100

/-- mean of the squared samples, `np.mean(audio_chunk ** 2)`.  On the empty
chunk the quotient degenerates to `0` in ℚ. -/
def mean_sq (audio_chunk : List ℚ) : ℚ :=
  (audio_chunk.map (fun x => x * x)).sum / audio_chunk.length

/-- energy heuristic `np.sqrt(np.mean(audio_chunk ** 2)) > 0.01`
(vad_silero.py:46-47 and 68-69).  Both sides of the original comparison are
nonnegative, so it is stated equivalently without the square root as
`mean_sq audio_chunk > 0.01 * 0.01`, exactly over ℚ. -/
def energy_exceeds (audio_chunk : List ℚ) : Bool :=
  decide (silence_energy_threshold * silence_energy_threshold <
    mean_sq audio_chunk)

/-- largest absolute sample value of the chunk, `audio_chunk.abs().max()`. -/
def max_abs (audio_chunk : List ℚ) : ℚ :=
  (audio_chunk.map abs_q).foldr max 0

/-- rescaling applied inside the `try` block before the model call
(vad_silero.py:56-57): if any sample exceeds `1.0` in magnitude the chunk
is divided by `32768.0`.  The tensor conversions and `squeeze` preserve the
sample values, so they are identities here. -/
def normalize (audio_chunk : List ℚ) : List ℚ :=
  if 1 < max_abs audio_chunk then audio_chunk.map (fun x => x / 32768)
  else audio_chunk

/-- embedding of `SileroVAD.is_speech` (vad_silero.py:42-69).  The
underlying Silero model is the pluggable call
`model : Option (List ℚ → Except String ℚ)` returning the speech
probability or raising; `none` models `self.model` being `None` after a
failed load.  Note that in the exception handler the local `audio_chunk`
has already been reassigned to the normalized tensor, so the fallback
energy is computed over the normalized chunk. -/
def is_speech (model : Option (List ℚ → Except String ℚ)) (threshold : ℚ)
    (audio_chunk : List ℚ) : Bool :=
  match model with
  | none => energy_exceeds audio_chunk
  | some m =>
    let chunk := normalize audio_chunk
    match m chunk with
    | Except.ok speech_prob => decide (threshold < speech_prob)
    | Except.error _ => energy_exceeds chunk

end SileroVAD

/-- TranscriptionResult dictionary returned by
`WhisperASR.transcribe_audio` (asr_whisper.py:109-127): the fields read by
the Stream Engine plus the error message of the failure path.  The text is
modelled as its character sequence so that `strip()` is executable. -/
structure TranscriptionResult where
  text : List Char
  success : Bool
  latency : ℚ
  error : Option String
deriving DecidableEq

/-- embedding of Python `str.strip()`: drop leading and trailing
whitespace characters. -/
def strip (text : List Char) : List Char :=
  (((text.dropWhile Char.isWhitespace).reverse).dropWhile
    Char.isWhitespace).reverse

/-- callback events of the Stream Engine surface.  The implementation in
`streaming_asr.py` emits `started`, `chunk`, `processing`, `result` and
`stopped`; the `failure` constructor is part of the event vocabulary named
by the design but, as proved below, is never produced by the code. -/
inductive ASREvent where
  | started : ASREvent
  | stopped : ASREvent
  | chunk (samples : List ℚ) : ASREvent
  | processing : ASREvent
  | result (r : TranscriptionResult) : ASREvent
  | failure (reason : String) : ASREvent
deriving DecidableEq

/-- recognizer for `failure` events. -/
def is_failure : ASREvent → Bool
  | ASREvent.failure _ => true
  | _ => false

/-- mutable state of a `StreamingASR` instance relevant to the claims:
`is_running`, the `stream` handle (`None` or an open `InputStream`), and
the non-VAD `audio_buffer`.  `active_subs` counts the `InputStream`
subscriptions that have been started and not yet closed; the source holds
at most one in `self.stream`, and the counter makes the single-subscription
property explicit. -/
structure ASRState where
  is_running : Bool
  stream : Option Nat
  active_subs : Nat
  audio_buffer : List (List ℚ)
deriving DecidableEq

namespace StreamingASR

/-- state built by `StreamingASR.__init__`: not running, no stream, empty
buffer. -/
def initASRState : ASRState := ⟨false, none, 0, []⟩

/-- embedding of `StreamingASR._process_audio` (streaming_asr.py:122-144),
the body run by each transcription worker thread.  The transcriber is the
pluggable call `asr : Option (List ℚ → Except String TranscriptionResult)`
(`none` models `self.asr` being `None`); an `Except.error` models a raised
exception, which this method does not catch.  The method reads `self` but
assigns no attribute, so the engine state `s` is returned unchanged; the
produced callback events are returned alongside. -/
def process_audio (s : ASRState) (has_callback : Bool)
    (asr : Option (List ℚ → Except String TranscriptionResult))
    (audio_data : List ℚ) : ASRState × Except String (List ASREvent) :=
  let evs := if has_callback then [ASREvent.processing] else []
  match asr with
  | none => (s, Except.ok evs)
  | some transcribe_audio =>
    match transcribe_audio audio_data with
    | Except.error e => (s, Except.error e)
    | Except.ok result =>
      if result.success = true ∧ result.text ≠ [] then
        if (strip result.text).length < 2 then
          (s, Except.ok evs)
        else
          (s, Except.ok (evs ++
            (if has_callback then [ASREvent.result result] else [])))
      else (s, Except.ok evs)

/-- events carried by a normally-returning run of a worker; a raised
exception carries none. -/
def eventsOf : Except String (List ASREvent) → List ASREvent
  | Except.ok evs => evs
  | Except.error _ => []

/-- mean absolute amplitude `np.abs(complete_audio).mean()`
(streaming_asr.py:106). -/
def mean_abs (l : List ℚ) : ℚ :=
  (l.map abs_q).sum / l.length

/-- embedding of the fallback (no-VAD) branch of
`StreamingASR._audio_callback` (streaming_asr.py:91-118): append the chunk
to `audio_buffer`; once `len(buffer) * len(chunk) / sample_rate` reaches
the 3.0-second window, concatenate and reset the buffer, and dispatch the
window to a worker exactly when its mean absolute amplitude exceeds 0.01.
The returned option is the audio handed to `_process_audio`, and the
events are the `chunk` pass-through callback. -/
def audio_callback_no_vad (s : ASRState) (sample_rate : ℚ)
    (has_callback : Bool) (audio_chunk : List ℚ) :
    ASRState × Option (List ℚ) × List ASREvent :=
  let buf := s.audio_buffer ++ [audio_chunk]
  let buffer_duration : ℚ :=
    ((buf.length : ℚ) * (audio_chunk.length : ℚ)) / sample_rate
  let chunk_evs := if has_callback then [ASREvent.chunk audio_chunk] else []
  if 3 ≤ buffer_duration then
    let complete_audio := buf.flatten
    let audio_level := mean_abs complete_audio
    if 1/100 < audio_level then
      ({ s with audio_buffer := [] }, some complete_audio, chunk_evs)
    else
      ({ s with audio_buffer := [] }, none, chunk_evs)
  else
    ({ s with audio_buffer := buf }, none, chunk_evs)

/-- embedding of the VAD branch of `StreamingASR._audio_callback`
(streaming_asr.py:82-90): run the Segmenter on the chunk and hand the
finished utterance to a `_process_audio` worker exactly when the status is
`"ended"` with a non-null payload. -/
def audio_callback_vad {α : Type} (is_speech : α → Bool) (v : VADState α)
    (audio_chunk : α) : VADState α × Option (List α) :=
  let out := StreamingVAD.process_chunk is_speech v audio_chunk
  if out.2.1 = "ended" ∧ out.2.2.isSome = true then (out.1, out.2.2)
  else (out.1, none)

/-- run of the capture callback in VAD mode over a frame sequence,
collecting the utterances dispatched to transcription workers. -/
def run_capture {α : Type} (is_speech : α → Bool) (v : VADState α) :
    List α → VADState α × List (List α)
  | [] => (v, [])
  | c :: rest =>
    let out := audio_callback_vad is_speech v c
    let next := run_capture is_speech out.1 rest
    (next.1, match out.2 with
             | some u => u :: next.2
             | none => next.2)

/-- embedding of `StreamingASR.start` (streaming_asr.py:146-175).
`open_stream` is the attempt to construct and start the `sd.InputStream`;
an `Except.error` models a raised exception, in which case `is_running` is
reset to `False` and the exception is re-raised (the third component).
When already running the method logs a warning and returns at once. -/
def start (s : ASRState) (open_stream : Except String Nat)
    (has_callback : Bool) : ASRState × List ASREvent × Option String :=
  if s.is_running = true then (s, [], none)
  else
    match open_stream with
    | Except.ok handle =>
      ({ s with is_running := true, stream := some handle,
                active_subs := s.active_subs + 1 },
       if has_callback then [ASREvent.started] else [], none)
    | Except.error e => ({ s with is_running := false }, [], some e)

/-- embedding of `StreamingASR.stop` (streaming_asr.py:177-192).  When not
running the method returns at once; otherwise it clears `is_running`,
stops and closes the stream if one is open, and emits `stopped`. -/
def stop (s : ASRState) (has_callback : Bool) : ASRState × List ASREvent :=
  if s.is_running = false then (s, [])
  else
    let s1 : ASRState := { s with is_running := false }
    let s2 : ASRState :=
      if s1.stream.isSome then
        { s1 with stream := none, active_subs := s1.active_subs - 1 }
      else s1
    (s2, if has_callback then [ASREvent.stopped] else [])

end StreamingASR

namespace StreamingVAD

lemma trailing_silence_append {α : Type} (f : α → Bool) (l : List α) (a : α) :
    trailing_silence f (l ++ [a]) =
      if f a = true then 0 else trailing_silence f l + 1 := by
  unfold trailing_silence
  rw [List.reverse_append]
  by_cases hfa : f a = true <;> simp [hfa, List.takeWhile_cons]

lemma initState_inv {α : Type} (f : α → Bool) : Inv f (initState α) := by
  constructor
  · intro _; rfl
  · intro h; simp [initState] at h

lemma process_chunk_speech_idle {α : Type} {f : α → Bool} {s : VADState α}
    {c : α} (hc : f c = true) (hs : s.is_speaking = false) :
    process_chunk f s c =
      (⟨true, s.speech_buffer ++ [c], 0, 1⟩, "speaking", none) := by
  simp [process_chunk, hc, hs]

lemma process_chunk_speech_speaking {α : Type} {f : α → Bool}
    {s : VADState α} {c : α} (hc : f c = true) (hs : s.is_speaking = true) :
    process_chunk f s c =
      (⟨true, s.speech_buffer ++ [c], 0, s.speech_chunks_count + 1⟩,
       "speaking", none) := by
  simp [process_chunk, hc, hs]

lemma process_chunk_silence_idle {α : Type} {f : α → Bool} {s : VADState α}
    {c : α} (hc : f c = false) (hs : s.is_speaking = false) :
    process_chunk f s c = (s, "silence", none) := by
  simp [process_chunk, hc, hs]

lemma process_chunk_silence_cont {α : Type} {f : α → Bool} {s : VADState α}
    {c : α} (hc : f c = false) (hs : s.is_speaking = true)
    (hmax : s.silence_chunks + 1 < max_silence_chunks) :
    process_chunk f s c =
      (⟨true, s.speech_buffer ++ [c], s.silence_chunks + 1,
        s.speech_chunks_count⟩, "speaking", none) := by
  simp [process_chunk, hc, hs, Nat.not_le.mpr hmax]

lemma process_chunk_silence_discard {α : Type} {f : α → Bool}
    {s : VADState α} {c : α} (hc : f c = false) (hs : s.is_speaking = true)
    (hmax : max_silence_chunks ≤ s.silence_chunks + 1)
    (hmin : s.speech_chunks_count < min_speech_chunks) :
    process_chunk f s c = (⟨false, [], 0, 0⟩, "silence", none) := by
  simp [process_chunk, hc, hs, hmax, hmin]

lemma process_chunk_silence_emit {α : Type} {f : α → Bool} {s : VADState α}
    {c : α} (hc : f c = false) (hs : s.is_speaking = true)
    (hmax : max_silence_chunks ≤ s.silence_chunks + 1)
    (hmin : min_speech_chunks ≤ s.speech_chunks_count) :
    process_chunk f s c =
      (⟨false, [], 0, 0⟩, "ended", some (s.speech_buffer ++ [c])) := by
  simp [process_chunk, hc, hs, hmax, Nat.not_lt.mpr hmin]

/-- one step of the Segmenter preserves the reachable-state invariant. -/
lemma process_chunk_inv {α : Type} (f : α → Bool) (s : VADState α) (c : α)
    (hI : Inv f s) : Inv f (process_chunk f s c).1 := by
  obtain ⟨hidle, hspeak⟩ := hI
  by_cases hc : f c = true
  · cases hs : s.is_speaking
    · rw [process_chunk_speech_idle hc hs]
      have hse : s = initState α := hidle hs
      rw [hse]
      refine ⟨by intro h; simp at h, fun _ => ⟨?_, ?_, ?_, ?_⟩⟩
      · simp [initState, hc]
      · simp [initState, trailing_silence, hc]
      · simp [max_silence_chunks]
      · exact ⟨c, [], by simp [initState], hc⟩
    · obtain ⟨hcnt, hsil, hlt, h0, t0, hbuf, hh0⟩ := hspeak hs
      rw [process_chunk_speech_speaking hc hs]
      refine ⟨by intro h; simp at h, fun _ => ⟨?_, ?_, ?_, ?_⟩⟩
      · simp [List.countP_append, hcnt, hc]
      · simp [trailing_silence_append, hc]
      · simp [max_silence_chunks]
      · exact ⟨h0, t0 ++ [c], by simp [hbuf], hh0⟩
  · have hc0 : f c = false := by
      cases h : f c
      · rfl
      · exact absurd h hc
    cases hs : s.is_speaking
    · rw [process_chunk_silence_idle hc0 hs]
      exact ⟨hidle, fun h => by rw [hs] at h; cases h⟩
    · obtain ⟨hcnt, hsil, hlt, h0, t0, hbuf, hh0⟩ := hspeak hs
      by_cases hmax : max_silence_chunks ≤ s.silence_chunks + 1
      · by_cases hmin : s.speech_chunks_count < min_speech_chunks
        · rw [process_chunk_silence_discard hc0 hs hmax hmin]
          exact initState_inv f
        · rw [process_chunk_silence_emit hc0 hs hmax (Nat.not_lt.mp hmin)]
          exact initState_inv f
      · rw [process_chunk_silence_cont hc0 hs (Nat.not_le.mp hmax)]
        refine ⟨by intro h; simp at h, fun _ => ⟨?_, ?_, ?_, ?_⟩⟩
        · simp [List.countP_append, hcnt, hc0]
        · simp [trailing_silence_append, hc0, hsil]
        · exact Nat.not_le.mp hmax
        · exact ⟨h0, t0 ++ [c], by simp [hbuf], hh0⟩

/-- characterization of an emission step: if `process_chunk` returns an
utterance, the pre-state was Speaking on a silence-classified frame, the
utterance is the whole buffer plus that frame, it carries at least
`min_speech_chunks` speech-classified frames, its trailing silence run is
exactly `max_silence_chunks`, it starts with a speech frame, and the
post-state is the initial (Idle, empty) state. -/
lemma process_chunk_emit {α : Type} (f : α → Bool) (s : VADState α) (c : α)
    (u : List α) (hI : Inv f s) (he : (process_chunk f s c).2.2 = some u) :
    u = s.speech_buffer ++ [c] ∧ f c = false ∧ s.is_speaking = true ∧
    min_speech_chunks ≤ u.countP f ∧
    trailing_silence f u = max_silence_chunks ∧
    (∃ h t, u = h :: t ∧ f h = true) ∧
    (process_chunk f s c).1 = initState α ∧
    (process_chunk f s c).2.1 = "ended" := by
  obtain ⟨hidle, hspeak⟩ := hI
  by_cases hc : f c = true
  · cases hs : s.is_speaking
    · rw [process_chunk_speech_idle hc hs] at he; cases he
    · rw [process_chunk_speech_speaking hc hs] at he; cases he
  · have hc0 : f c = false := by
      cases h : f c
      · rfl
      · exact absurd h hc
    cases hs : s.is_speaking
    · rw [process_chunk_silence_idle hc0 hs] at he; cases he
    · obtain ⟨hcnt, hsil, hlt, h0, t0, hbuf, hh0⟩ := hspeak hs
      by_cases hmax : max_silence_chunks ≤ s.silence_chunks + 1
      · by_cases hmin : s.speech_chunks_count < min_speech_chunks
        · rw [process_chunk_silence_discard hc0 hs hmax hmin] at he
          cases he
        · have hmin2 := Nat.not_lt.mp hmin
          have heq := process_chunk_silence_emit hc0 hs hmax hmin2
          rw [heq] at he
          simp only [Option.some.injEq] at he
          subst he
          refine ⟨rfl, hc0, rfl, ?_, ?_, ?_, by rw [heq]; rfl, by rw [heq]⟩
          · rw [List.countP_append]
            simp only [List.countP_cons, List.countP_nil, hc0]
            omega
          · rw [trailing_silence_append]
            rw [hc0]
            simp only [Bool.false_eq_true, if_false]
            omega
          · exact ⟨h0, t0 ++ [c], by simp [hbuf], hh0⟩
      · have heq := process_chunk_silence_cont hc0 hs (Nat.not_le.mp hmax)
        rw [heq] at he; cases he

/-- the invariant holds after processing any frame sequence. -/
lemma run_fst_inv {α : Type} (f : α → Bool) (frames : List α) :
    ∀ s : VADState α, Inv f s → Inv f (run f s frames).1 := by
  induction frames with
  | nil => intro s h; simpa [run] using h
  | cons c rest ih =>
    intro s h
    simp only [run]
    exact ih _ (process_chunk_inv f s c h)

/-- every utterance emitted along a run from an invariant state carries at
least `min_speech_chunks` speech-classified frames, ends in a trailing
silence run of exactly `max_silence_chunks` frames, and starts with a
speech-classified frame. -/
lemma run_mem_emit {α : Type} (f : α → Bool) (frames : List α) :
    ∀ s : VADState α, Inv f s → ∀ u ∈ (run f s frames).2,
      min_speech_chunks ≤ u.countP f ∧
      trailing_silence f u = max_silence_chunks ∧
      ∃ h t, u = h :: t ∧ f h = true := by
  induction frames with
  | nil => intro s _ u hu; simp [run] at hu
  | cons c rest ih =>
    intro s hI u hu
    simp only [run] at hu
    cases he : (process_chunk f s c).2.2 with
    | none =>
      rw [he] at hu
      exact ih _ (process_chunk_inv f s c hI) u hu
    | some u0 =>
      rw [he] at hu
      rcases List.mem_cons.mp hu with h | h
      · subst h
        obtain ⟨_, _, _, h4, h5, h6, _, _⟩ := process_chunk_emit f s c u hI he
        exact ⟨h4, h5, h6⟩
      · exact ih _ (process_chunk_inv f s c hI) u h

/-- one step preserves the history invariant: while Speaking, the buffer is
a suffix of the frames processed so far. -/
lemma process_chunk_history {α : Type} (f : α → Bool) (s : VADState α)
    (c : α) (done : List α) (hI : Inv f s)
    (hH : s.is_speaking = true → ∃ pre, done = pre ++ s.speech_buffer) :
    (process_chunk f s c).1.is_speaking = true →
      ∃ pre, done ++ [c] = pre ++ (process_chunk f s c).1.speech_buffer := by
  by_cases hc : f c = true
  · cases hs : s.is_speaking
    · rw [process_chunk_speech_idle hc hs]
      intro _
      have hbe : s.speech_buffer = [] := by rw [hI.1 hs]; rfl
      exact ⟨done, by simp [hbe]⟩
    · rw [process_chunk_speech_speaking hc hs]
      intro _
      obtain ⟨pre, hp⟩ := hH hs
      exact ⟨pre, by simp [hp]⟩
  · have hc0 : f c = false := by
      cases h : f c
      · rfl
      · exact absurd h hc
    cases hs : s.is_speaking
    · rw [process_chunk_silence_idle hc0 hs]
      intro h; rw [hs] at h; cases h
    · by_cases hmax : max_silence_chunks ≤ s.silence_chunks + 1
      · by_cases hmin : s.speech_chunks_count < min_speech_chunks
        · rw [process_chunk_silence_discard hc0 hs hmax hmin]
          intro h; cases h
        · rw [process_chunk_silence_emit hc0 hs hmax (Nat.not_lt.mp hmin)]
          intro h; cases h
      · rw [process_chunk_silence_cont hc0 hs (Nat.not_le.mp hmax)]
        intro _
        obtain ⟨pre, hp⟩ := hH hs
        exact ⟨pre, by simp [hp]⟩

/-- every utterance emitted along a run is a contiguous infix of the frames
processed: the frames already processed (`done`) followed by the remaining
input decompose as a prefix, the utterance itself, and a suffix. -/
lemma run_mem_infix {α : Type} (f : α → Bool) :
    ∀ (frames : List α) (s : VADState α) (done : List α), Inv f s →
      (s.is_speaking = true → ∃ pre, done = pre ++ s.speech_buffer) →
      ∀ u ∈ (run f s frames).2,
        ∃ pre post, done ++ frames = pre ++ (u ++ post) := by
  intro frames
  induction frames with
  | nil => intro s done _ _ u hu; simp [run] at hu
  | cons c rest ih =>
    intro s done hI hH u hu
    simp only [run] at hu
    have hI2 := process_chunk_inv f s c hI
    have hH2 := process_chunk_history f s c done hI hH
    have hsplit : done ++ (c :: rest) = (done ++ [c]) ++ rest := by simp
    cases he : (process_chunk f s c).2.2 with
    | none =>
      rw [he] at hu
      obtain ⟨pre, post, hpp⟩ := ih (process_chunk f s c).1 (done ++ [c]) hI2 hH2 u hu
      exact ⟨pre, post, by rw [hsplit, hpp]⟩
    | some u0 =>
      rw [he] at hu
      rcases List.mem_cons.mp hu with h | h
      · subst h
        obtain ⟨hu0, _, hspk, _, _, _, _, _⟩ := process_chunk_emit f s c u hI he
        obtain ⟨pre, hp⟩ := hH hspk
        refine ⟨pre, rest, ?_⟩
        rw [hp, hu0]
        simp
      · obtain ⟨pre, post, hpp⟩ := ih (process_chunk f s c).1 (done ++ [c]) hI2 hH2 u h
        exact ⟨pre, post, by rw [hsplit, hpp]⟩

end StreamingVAD

namespace StreamingASR

/-- the capture callback dispatches exactly the payloads emitted by
`process_chunk`: every `some` payload comes with the `"ended"` status, so
the guard `state == "ended" and complete_audio is not None` is equivalent
to the payload being non-null. -/
lemma audio_callback_vad_eq {α : Type} (f : α → Bool)
    (v : VADState α) (c : α) :
    StreamingASR.audio_callback_vad f v c =
      ((StreamingVAD.process_chunk f v c).1,
       (StreamingVAD.process_chunk f v c).2.2) := by
  unfold StreamingASR.audio_callback_vad
  by_cases hc : f c = true
  · cases hs : v.is_speaking
    · rw [StreamingVAD.process_chunk_speech_idle hc hs]; simp
    · rw [StreamingVAD.process_chunk_speech_speaking hc hs]; simp
  · have hc0 : f c = false := by
      cases h : f c
      · rfl
      · exact absurd h hc
    cases hs : v.is_speaking
    · rw [StreamingVAD.process_chunk_silence_idle hc0 hs]; simp
    · by_cases hmax : StreamingVAD.max_silence_chunks ≤ v.silence_chunks + 1
      · by_cases hmin :
            v.speech_chunks_count < StreamingVAD.min_speech_chunks
        · rw [StreamingVAD.process_chunk_silence_discard hc0 hs hmax hmin]
          simp
        · rw [StreamingVAD.process_chunk_silence_emit hc0 hs hmax
            (Nat.not_lt.mp hmin)]
          simp
      · rw [StreamingVAD.process_chunk_silence_cont hc0 hs
          (Nat.not_le.mp hmax)]
        simp

/-- the utterances dispatched by the capture callback are exactly the
utterances emitted by the Segmenter. -/
lemma run_capture_eq {α : Type} (f : α → Bool)
    (frames : List α) : ∀ v : VADState α,
    StreamingASR.run_capture f v frames = StreamingVAD.run f v frames := by
  induction frames with
  | nil => intro v; rfl
  | cons c rest ih =>
    intro v
    simp only [StreamingASR.run_capture, StreamingVAD.run,
      audio_callback_vad_eq, ih]

end StreamingASR

end Vaani

open Vaani

/-- C1: over any frame sequence, the Dispatcher receives an utterance only
when it carries at least `min_speech_chunks = 22` speech-classified frames
(the speech count since the Speaking transition) and its trailing
contiguous silence run has reached `max_silence_chunks = 13` frames. -/
theorem dispatcher_requires_min_speech_and_max_silence {α : Type}
    (f : α → Bool) (frames : List α) (u : List α)
    (hu : u ∈ (StreamingASR.run_capture f (StreamingVAD.initState α)
      frames).2) :
    StreamingVAD.min_speech_chunks ≤ u.countP f ∧
    StreamingVAD.trailing_silence f u = StreamingVAD.max_silence_chunks ∧
    StreamingVAD.min_speech_chunks = 22 ∧
    StreamingVAD.max_silence_chunks = 13 := by
  rw [Vaani.StreamingASR.run_capture_eq] at hu
  have h := StreamingVAD.run_mem_emit f frames _
    (StreamingVAD.initState_inv f) u hu
  exact ⟨h.1, h.2.1, rfl, rfl⟩

/-- witness for C1 at a concrete dispatched utterance: 25 speech frames
followed by 13 silence frames are dispatched as one utterance satisfying
both thresholds. -/
theorem dispatcher_requires_min_speech_and_max_silence_witness :
    (List.replicate 25 true ++ List.replicate 13 false) ∈
      (StreamingASR.run_capture (fun b => b) (StreamingVAD.initState Bool)
        (List.replicate 25 true ++ List.replicate 13 false)).2 ∧
    StreamingVAD.min_speech_chunks ≤
      (List.replicate 25 true ++ List.replicate 13 false).countP
        (fun b => b) ∧
    StreamingVAD.trailing_silence (fun b => b)
        (List.replicate 25 true ++ List.replicate 13 false) =
      StreamingVAD.max_silence_chunks :=
  ⟨by decide,
   (dispatcher_requires_min_speech_and_max_silence (fun b => b)
      (List.replicate 25 true ++ List.replicate 13 false)
      (List.replicate 25 true ++ List.replicate 13 false) (by decide)).1,
   (dispatcher_requires_min_speech_and_max_silence (fun b => b)
      (List.replicate 25 true ++ List.replicate 13 false)
      (List.replicate 25 true ++ List.replicate 13 false) (by decide)).2.1⟩

/-- C2 counterexample: 25 speech frames followed by 14 silence frames do
NOT yield an utterance of 39 frames — the utterance is emitted on the 13th
silence frame and holds 38 frames, the 14th silence frame arriving in the
Idle state. -/
theorem segmenter_25_speech_14_silence_not_39 :
    ¬ (((StreamingVAD.run (fun b => b) (StreamingVAD.initState Bool)
          (List.replicate 25 true ++ List.replicate 14 false)).2).map
        List.length = [39]) := by decide

/-- C2 amended: 25 speech frames followed by 14 silence frames yield
exactly one utterance — the first 38 frames (25 speech plus the 13 silence
frames that closed it) — after which the Segmenter is back in the initial
Idle state. -/
theorem segmenter_25_speech_14_silence_emits_38 :
    (StreamingVAD.run (fun b => b) (StreamingVAD.initState Bool)
        (List.replicate 25 true ++ List.replicate 14 false)).2 =
      [List.replicate 25 true ++ List.replicate 13 false] ∧
    (List.replicate 25 true ++ List.replicate 13 false).length = 38 ∧
    (StreamingVAD.run (fun b => b) (StreamingVAD.initState Bool)
        (List.replicate 25 true ++ List.replicate 14 false)).1 =
      StreamingVAD.initState Bool := by decide

/-- C3: every emitted utterance is a contiguous, untrimmed segment of the
input frame sequence — it begins with the speech-classified onset frame of
its Speaking transition, keeps every frame appended while Speaking
(silence frames included), and ends with the full trailing run of
`max_silence_chunks` silence frames that closed it. -/
theorem emitted_utterance_is_untrimmed_contiguous_segment {α : Type}
    (f : α → Bool) (frames : List α) (u : List α)
    (hu : u ∈ (StreamingVAD.run f (StreamingVAD.initState α) frames).2) :
    (∃ pre post, frames = pre ++ (u ++ post)) ∧
    (∃ h t, u = h :: t ∧ f h = true) ∧
    StreamingVAD.trailing_silence f u = StreamingVAD.max_silence_chunks := by
  have hinfix := StreamingVAD.run_mem_infix f frames
    (StreamingVAD.initState α) [] (StreamingVAD.initState_inv f)
    (by intro h; simp [StreamingVAD.initState] at h) u hu
  have hemit := StreamingVAD.run_mem_emit f frames _
    (StreamingVAD.initState_inv f) u hu
  obtain ⟨pre, post, hpp⟩ := hinfix
  exact ⟨⟨pre, post, by simpa using hpp⟩, hemit.2.2, hemit.2.1⟩

/-- witness for C3 at a concrete emission. -/
theorem emitted_utterance_is_untrimmed_contiguous_segment_witness :
    (∃ pre post, (List.replicate 25 true ++ List.replicate 14 false) =
      pre ++ ((List.replicate 25 true ++ List.replicate 13 false) ++ post)) ∧
    (∃ h t, (List.replicate 25 true ++ List.replicate 13 false) = h :: t ∧
      (fun b => b) h = true) ∧
    StreamingVAD.trailing_silence (fun b => b)
        (List.replicate 25 true ++ List.replicate 13 false) =
      StreamingVAD.max_silence_chunks :=
  emitted_utterance_is_untrimmed_contiguous_segment (fun b => b)
    (List.replicate 25 true ++ List.replicate 14 false)
    (List.replicate 25 true ++ List.replicate 13 false) (by decide)

/-- C6: a `process_chunk` call that emits an utterance, or that discards
the buffer as a noise burst, leaves the Segmenter in the Idle state with
an empty buffer and both counters zero (the initial state). -/
theorem segmenter_reset_after_emit_or_discard {α : Type} (f : α → Bool)
    (s : VADState α) (c : α) :
    (∀ u, (StreamingVAD.process_chunk f s c).2.2 = some u →
       (StreamingVAD.process_chunk f s c).1 = StreamingVAD.initState α) ∧
    (f c = false → s.is_speaking = true →
     StreamingVAD.max_silence_chunks ≤ s.silence_chunks + 1 →
     s.speech_chunks_count < StreamingVAD.min_speech_chunks →
     (StreamingVAD.process_chunk f s c).1 = StreamingVAD.initState α) := by
  constructor
  · intro u he
    by_cases hc : f c = true
    · cases hs : s.is_speaking
      · rw [StreamingVAD.process_chunk_speech_idle hc hs] at he; cases he
      · rw [StreamingVAD.process_chunk_speech_speaking hc hs] at he
        cases he
    · have hc0 : f c = false := by
        cases h : f c
        · rfl
        · exact absurd h hc
      cases hs : s.is_speaking
      · rw [StreamingVAD.process_chunk_silence_idle hc0 hs] at he; cases he
      · by_cases hmax : StreamingVAD.max_silence_chunks ≤
            s.silence_chunks + 1
        · by_cases hmin :
              s.speech_chunks_count < StreamingVAD.min_speech_chunks
          · rw [StreamingVAD.process_chunk_silence_discard hc0 hs hmax hmin]
            rfl
          · rw [StreamingVAD.process_chunk_silence_emit hc0 hs hmax
              (Nat.not_lt.mp hmin)]
            rfl
        · rw [StreamingVAD.process_chunk_silence_cont hc0 hs
            (Nat.not_le.mp hmax)] at he
          cases he
  · intro hc0 hs hmax hmin
    rw [StreamingVAD.process_chunk_silence_discard hc0 hs hmax hmin]
    rfl

/-- witness for C6: one concrete emission call and one concrete discard
call, both resetting the state. -/
theorem segmenter_reset_after_emit_or_discard_witness :
    (StreamingVAD.process_chunk (fun b => b)
        ⟨true, List.replicate 30 true, 12, 22⟩ false).1 =
      StreamingVAD.initState Bool ∧
    (StreamingVAD.process_chunk (fun b => b)
        ⟨true, List.replicate 5 true, 12, 5⟩ false).1 =
      StreamingVAD.initState Bool :=
  ⟨(segmenter_reset_after_emit_or_discard (fun b => b)
      ⟨true, List.replicate 30 true, 12, 22⟩ false).1
      (List.replicate 30 true ++ [false]) (by decide),
   (segmenter_reset_after_emit_or_discard (fun b => b)
      ⟨true, List.replicate 5 true, 12, 5⟩ false).2
      rfl rfl (by decide) (by decide)⟩

/-- C10: after processing any frame sequence from the initial state, an
Idle Segmenter has an empty buffer and zero counters, and a Speaking
Segmenter has a silence counter strictly below `max_silence_chunks` and a
speech counter bounded by the buffer length; hence a completed silence run
is resolved within the call that completes it. -/
theorem segmenter_reachable_state_invariant {α : Type} (f : α → Bool)
    (frames : List α) :
    ((StreamingVAD.run f (StreamingVAD.initState α) frames).1.is_speaking
        = false →
      (StreamingVAD.run f (StreamingVAD.initState α)
          frames).1.speech_buffer = [] ∧
      (StreamingVAD.run f (StreamingVAD.initState α)
          frames).1.silence_chunks = 0 ∧
      (StreamingVAD.run f (StreamingVAD.initState α)
          frames).1.speech_chunks_count = 0) ∧
    ((StreamingVAD.run f (StreamingVAD.initState α) frames).1.is_speaking
        = true →
      (StreamingVAD.run f (StreamingVAD.initState α)
          frames).1.silence_chunks < StreamingVAD.max_silence_chunks ∧
      (StreamingVAD.run f (StreamingVAD.initState α)
          frames).1.speech_chunks_count ≤
        (StreamingVAD.run f (StreamingVAD.initState α)
          frames).1.speech_buffer.length) := by
  have hI := StreamingVAD.run_fst_inv f frames (StreamingVAD.initState α)
    (StreamingVAD.initState_inv f)
  constructor
  · intro h
    rw [hI.1 h]
    exact ⟨rfl, rfl, rfl⟩
  · intro h
    obtain ⟨hcnt, _, hlt, _⟩ := hI.2 h
    exact ⟨hlt, hcnt ▸ List.countP_le_length f⟩

/-- C4 counterexample: a transcription call returning an unsuccessful
result raises zero `failure` events, not exactly one — the implementation
defines no `failure` emission at all. -/
theorem failed_transcription_raises_no_failure_event :
    ¬ (∃ evs, (StreamingASR.process_audio StreamingASR.initASRState true
        (some (fun _ => Except.ok ⟨[], false, 0, some "boom"⟩)) [0]).2 =
          Except.ok evs ∧
        evs.countP is_failure = 1) := by
  rintro ⟨evs, h1, h2⟩
  have hr : (StreamingASR.process_audio StreamingASR.initASRState true
      (some (fun _ => Except.ok ⟨[], false, 0, some "boom"⟩)) [0]).2 =
        Except.ok [ASREvent.processing] := rfl
  rw [hr] at h1
  injection h1 with h3
  rw [← h3] at h2
  exact absurd h2 (by decide)

/-- C4 amended: `_process_audio` never raises a `failure` event.  On an
unsuccessful (or empty-text) result it returns normally with only the
`processing` event, propagating nothing; a raised transcription exception
propagates out of the worker body uncaught (on the worker thread, not the
capture thread) with no event; and the method assigns no engine state, so
the running flag is untouched. -/
theorem unsuccessful_transcription_logged_only (s : ASRState)
    (t : List ℚ → Except String TranscriptionResult) (audio : List ℚ)
    (cb : Bool) :
    (∀ r, t audio = Except.ok r → (r.success = false ∨ r.text = []) →
       StreamingASR.process_audio s cb (some t) audio =
         (s, Except.ok (if cb then [ASREvent.processing] else []))) ∧
    (∀ e, t audio = Except.error e →
       StreamingASR.process_audio s cb (some t) audio =
         (s, Except.error e)) ∧
    (∀ evs, (StreamingASR.process_audio s cb (some t) audio).2 =
        Except.ok evs → evs.countP is_failure = 0) ∧
    (StreamingASR.process_audio s cb (some t) audio).1 = s := by
  refine ⟨?_, ?_, ?_, ?_⟩
  · intro r hr hbad
    have hcond : ¬ (r.success = true ∧ r.text ≠ []) := by
      rcases hbad with h | h
      · rintro ⟨h1, _⟩; rw [h] at h1; cases h1
      · rintro ⟨_, h2⟩; exact h2 h
    simp only [StreamingASR.process_audio, hr]
    rw [if_neg hcond]
  · intro e he
    simp only [StreamingASR.process_audio, he]
  · intro evs hevs
    cases ht : t audio with
    | error e =>
      simp only [StreamingASR.process_audio, ht] at hevs
      cases hevs
    | ok r =>
      simp only [StreamingASR.process_audio, ht] at hevs
      by_cases hok : r.success = true ∧ r.text ≠ []
      · rw [if_pos hok] at hevs
        by_cases hlen : (strip r.text).length < 2
        · rw [if_pos hlen] at hevs
          injection hevs with h
          rw [← h]
          cases cb <;> decide
        · rw [if_neg hlen] at hevs
          injection hevs with h
          rw [← h]
          cases cb <;>
            simp [is_failure, List.countP_append, List.countP_cons]
      · rw [if_neg hok] at hevs
        injection hevs with h
        rw [← h]
        cases cb <;> decide
  · cases ht : t audio with
    | error e => simp only [StreamingASR.process_audio, ht]
    | ok r =>
      simp only [StreamingASR.process_audio, ht]
      by_cases hok : r.success = true ∧ r.text ≠ []
      · rw [if_pos hok]
        by_cases hlen : (strip r.text).length < 2
        · rw [if_pos hlen]
        · rw [if_neg hlen]
      · rw [if_neg hok]

/-- witness for the amended C4 at a concrete unsuccessful result. -/
theorem unsuccessful_transcription_logged_only_witness :
    StreamingASR.process_audio StreamingASR.initASRState true
        (some (fun _ => Except.ok ⟨[], false, 0, some "boom"⟩)) [0] =
      (StreamingASR.initASRState, Except.ok [ASREvent.processing]) :=
  (unsuccessful_transcription_logged_only StreamingASR.initASRState
      (fun _ => Except.ok ⟨[], false, 0, some "boom"⟩) [0] true).1
    ⟨[], false, 0, some "boom"⟩ rfl (Or.inl rfl)

/-- C5 counterexample: when the model call raises on a high-energy chunk,
`is_speech` returns `true` (the energy fallback), not `false`. -/
theorem classifier_exception_not_treated_as_silence :
    ¬ (SileroVAD.is_speech (some (fun _ => Except.error "boom")) (6/10)
        [1] = false) := by
  have h1 : SileroVAD.is_speech (some (fun _ => Except.error "boom"))
      (6/10) [1] = SileroVAD.energy_exceeds (SileroVAD.normalize [1]) := rfl
  have hmax : SileroVAD.max_abs [1] = 1 := by
    norm_num [SileroVAD.max_abs, abs_q, max_def]
  have h2 : SileroVAD.normalize [1] = [1] := by
    unfold SileroVAD.normalize
    rw [hmax, if_neg (by norm_num)]
  have h3 : SileroVAD.energy_exceeds [1] = true := by
    unfold SileroVAD.energy_exceeds
    simp only [decide_eq_true_eq]
    norm_num [SileroVAD.mean_sq, SileroVAD.silence_energy_threshold]
  rw [h1, h2, h3]
  decide

/-- C5 amended: when the underlying model call raises, `is_speech` does
not propagate the exception and does not return plain `false`: it falls
back to the energy heuristic (root-mean-square amplitude above 0.01)
computed over the normalized chunk — the same heuristic used when no model
is loaded at all. -/
theorem classifier_exception_energy_fallback :
    (∀ (m : List ℚ → Except String ℚ) (threshold : ℚ) (chunk : List ℚ)
       (e : String), m (SileroVAD.normalize chunk) = Except.error e →
       SileroVAD.is_speech (some m) threshold chunk =
         SileroVAD.energy_exceeds (SileroVAD.normalize chunk)) ∧
    (∀ (threshold : ℚ) (chunk : List ℚ),
       SileroVAD.is_speech none threshold chunk =
         SileroVAD.energy_exceeds chunk) := by
  constructor
  · intro m threshold chunk e hm
    simp only [SileroVAD.is_speech, hm]
  · intro threshold chunk
    rfl

/-- witness for the amended C5 at a concrete raising model. -/
theorem classifier_exception_energy_fallback_witness :
    SileroVAD.is_speech (some (fun _ => Except.error "boom")) (6/10)
        [1] =
      SileroVAD.energy_exceeds (SileroVAD.normalize [1]) :=
  classifier_exception_energy_fallback.1 (fun _ => Except.error "boom")
    (6/10) [1] "boom" rfl

/-- C7: for a successful transcription result delivered with a callback
installed, the `result` event fires exactly when the stripped text has at
least 2 characters. -/
theorem result_event_iff_min_text_length (s : ASRState)
    (t : List ℚ → Except String TranscriptionResult) (audio : List ℚ)
    (r : TranscriptionResult) (ht : t audio = Except.ok r)
    (hsucc : r.success = true) :
    (ASREvent.result r ∈
        StreamingASR.eventsOf
          ((StreamingASR.process_audio s true (some t) audio).2) ↔
      2 ≤ (strip r.text).length) := by
  by_cases htext : r.text = []
  · have hcond : ¬ (r.success = true ∧ r.text ≠ []) := by
      rintro ⟨_, h2⟩; exact h2 htext
    simp only [StreamingASR.process_audio, ht]
    rw [if_neg hcond]
    have htrim : (strip r.text).length = 0 := by rw [htext]; rfl
    simp [StreamingASR.eventsOf, htrim]
  · have hcond : r.success = true ∧ r.text ≠ [] := ⟨hsucc, htext⟩
    simp only [StreamingASR.process_audio, ht]
    rw [if_pos hcond]
    by_cases hlen : (strip r.text).length < 2
    · rw [if_pos hlen]
      constructor
      · intro h
        exfalso
        simp [StreamingASR.eventsOf] at h
      · intro h; omega
    · rw [if_neg hlen]
      constructor
      · intro _; omega
      · intro _
        simp [StreamingASR.eventsOf]

/-- witness for C7: text `"ok"` fires `result`; text `"a"` does not. -/
theorem result_event_iff_min_text_length_witness :
    (ASREvent.result ⟨['o', 'k'], true, 0, none⟩ ∈
      StreamingASR.eventsOf
        ((StreamingASR.process_audio StreamingASR.initASRState true
          (some (fun _ => Except.ok ⟨['o', 'k'], true, 0, none⟩))
          [0]).2)) ∧
    ¬ (ASREvent.result ⟨['a'], true, 0, none⟩ ∈
      StreamingASR.eventsOf
        ((StreamingASR.process_audio StreamingASR.initASRState true
          (some (fun _ => Except.ok ⟨['a'], true, 0, none⟩)) [0]).2)) :=
  ⟨(result_event_iff_min_text_length StreamingASR.initASRState
      (fun _ => Except.ok ⟨['o', 'k'], true, 0, none⟩) [0]
      ⟨['o', 'k'], true, 0, none⟩ rfl rfl).mpr (by decide),
   fun h => absurd ((result_event_iff_min_text_length
      StreamingASR.initASRState
      (fun _ => Except.ok ⟨['a'], true, 0, none⟩) [0]
      ⟨['a'], true, 0, none⟩ rfl rfl).mp h) (by decide)⟩

/-- C8: in fallback (no-VAD) mode, once the accumulated buffer reaches the
3.0-second window, the buffer is reset to empty and the concatenated
window is dispatched as one utterance exactly when its mean absolute
amplitude exceeds 0.01 (otherwise nothing is dispatched). -/
theorem fallback_window_dispatch (s : ASRState) (sr : ℚ) (cb : Bool)
    (chunk : List ℚ)
    (hwin : 3 ≤ (((s.audio_buffer ++ [chunk]).length : ℚ) *
      (chunk.length : ℚ)) / sr) :
    (StreamingASR.audio_callback_no_vad s sr cb chunk).1.audio_buffer =
      [] ∧
    ((StreamingASR.audio_callback_no_vad s sr cb chunk).2.1 =
        some ((s.audio_buffer ++ [chunk]).flatten) ↔
      1/100 < StreamingASR.mean_abs
        ((s.audio_buffer ++ [chunk]).flatten)) ∧
    ((StreamingASR.audio_callback_no_vad s sr cb chunk).2.1 = none ↔
      StreamingASR.mean_abs ((s.audio_buffer ++ [chunk]).flatten) ≤
        1/100) := by
  simp only [StreamingASR.audio_callback_no_vad]
  rw [if_pos hwin]
  by_cases hlev : 1/100 < StreamingASR.mean_abs
      ((s.audio_buffer ++ [chunk]).flatten)
  · rw [if_pos hlev]
    exact ⟨rfl, iff_of_true rfl hlev,
      iff_of_false (by simp) (not_le.mpr hlev)⟩
  · rw [if_neg hlev]
    exact ⟨rfl, iff_of_false (by simp) hlev,
      iff_of_true rfl (not_lt.mp hlev)⟩

/-- witness for C8: with a one-chunk 3-second window at `sample_rate = 1`,
a window of mean absolute amplitude 0.05 dispatches exactly that window,
and a window of mean absolute amplitude 0.001 dispatches nothing; the
buffer is reset in both cases. -/
theorem fallback_window_dispatch_witness :
    ((StreamingASR.audio_callback_no_vad StreamingASR.initASRState 1 true
        [1/20, 1/20, 1/20]).2.1 = some [1/20, 1/20, 1/20] ∧
     (StreamingASR.audio_callback_no_vad StreamingASR.initASRState 1 true
        [1/20, 1/20, 1/20]).1.audio_buffer = []) ∧
    ((StreamingASR.audio_callback_no_vad StreamingASR.initASRState 1 true
        [1/1000, 1/1000, 1/1000]).2.1 = none ∧
     (StreamingASR.audio_callback_no_vad StreamingASR.initASRState 1 true
        [1/1000, 1/1000, 1/1000]).1.audio_buffer = []) :=
  ⟨⟨((fallback_window_dispatch StreamingASR.initASRState 1 true
        [1/20, 1/20, 1/20]
        (by norm_num [StreamingASR.initASRState])).2.1).mpr
      (by norm_num [StreamingASR.initASRState, StreamingASR.mean_abs,
        abs_q]),
    (fallback_window_dispatch StreamingASR.initASRState 1 true
        [1/20, 1/20, 1/20]
        (by norm_num [StreamingASR.initASRState])).1⟩,
   ⟨((fallback_window_dispatch StreamingASR.initASRState 1 true
        [1/1000, 1/1000, 1/1000]
        (by norm_num [StreamingASR.initASRState])).2.2).mpr
      (by norm_num [StreamingASR.initASRState, StreamingASR.mean_abs,
        abs_q]),
    (fallback_window_dispatch StreamingASR.initASRState 1 true
        [1/1000, 1/1000, 1/1000]
        (by norm_num [StreamingASR.initASRState])).1⟩⟩

/-- C9: lifecycle misuse is a no-op and never raises: `start` while
running returns the state unchanged with no exception (so a second `start`
leaves exactly the one subscription opened by the first), and `stop` while
stopped returns the state unchanged with no events and no exception. -/
theorem lifecycle_idempotent :
    (∀ (s : ASRState) (o : Except String Nat) (cb : Bool),
       s.is_running = true → StreamingASR.start s o cb = (s, [], none)) ∧
    (∀ (s : ASRState) (cb : Bool),
       s.is_running = false → StreamingASR.stop s cb = (s, [])) ∧
    (∀ (s : ASRState) (h : Nat) (o2 : Except String Nat) (cb cb2 : Bool),
       s.is_running = false →
       (StreamingASR.start
           ((StreamingASR.start s (Except.ok h) cb).1) o2 cb2).1 =
         (StreamingASR.start s (Except.ok h) cb).1 ∧
       (StreamingASR.start s (Except.ok h) cb).1.active_subs =
         s.active_subs + 1) := by
  refine ⟨?_, ?_, ?_⟩
  · intro s o cb hrun
    unfold StreamingASR.start
    rw [if_pos hrun]
  · intro s cb hstop
    unfold StreamingASR.stop
    rw [if_pos hstop]
  · intro s h o2 cb cb2 hstop
    have hfirst : StreamingASR.start s (Except.ok h) cb =
        ({ s with is_running := true, stream := some h,
                  active_subs := s.active_subs + 1 },
         if cb then [ASREvent.started] else [], none) := by
      unfold StreamingASR.start
      rw [if_neg (by rw [hstop]; exact Bool.false_ne_true)]
    constructor
    · rw [hfirst]
      unfold StreamingASR.start
      rw [if_pos rfl]
    · rw [hfirst]

/-- witness for C9 from the freshly-constructed engine state: a redundant
`stop` is a no-op, and a second `start` after a successful one changes
nothing and leaves exactly one active subscription. -/
theorem lifecycle_idempotent_witness :
    StreamingASR.stop StreamingASR.initASRState true =
      (StreamingASR.initASRState, []) ∧
    (StreamingASR.start
        ((StreamingASR.start StreamingASR.initASRState
          (Except.ok 7) true).1) (Except.ok 8) true).1 =
      (StreamingASR.start StreamingASR.initASRState (Except.ok 7)
        true).1 ∧
    (StreamingASR.start StreamingASR.initASRState (Except.ok 7)
        true).1.active_subs = StreamingASR.initASRState.active_subs + 1 :=
  ⟨lifecycle_idempotent.2.1 StreamingASR.initASRState true rfl,
   (lifecycle_idempotent.2.2 StreamingASR.initASRState 7 (Except.ok 8)
      true true rfl).1,
   (lifecycle_idempotent.2.2 StreamingASR.initASRState 7 (Except.ok 8)
      true true rfl).2⟩

/-- witness for C10 in both the Idle case (after a full utterance) and the
Speaking case (mid-utterance). -/
theorem segmenter_reachable_state_invariant_witness :
    ((StreamingVAD.run (fun b => b) (StreamingVAD.initState Bool)
        (List.replicate 25 true ++ List.replicate 14 false)).1.speech_buffer
      = [] ∧
     (StreamingVAD.run (fun b => b) (StreamingVAD.initState Bool)
        (List.replicate 25 true ++ List.replicate 14 false)).1.silence_chunks
      = 0 ∧
     (StreamingVAD.run (fun b => b) (StreamingVAD.initState Bool)
        (List.replicate 25 true ++
          List.replicate 14 false)).1.speech_chunks_count = 0) ∧
    ((StreamingVAD.run (fun b => b) (StreamingVAD.initState Bool)
        (List.replicate 3 true)).1.silence_chunks <
      StreamingVAD.max_silence_chunks ∧
     (StreamingVAD.run (fun b => b) (StreamingVAD.initState Bool)
        (List.replicate 3 true)).1.speech_chunks_count ≤
      (StreamingVAD.run (fun b => b) (StreamingVAD.initState Bool)
        (List.replicate 3 true)).1.speech_buffer.length) :=
  ⟨(segmenter_reachable_state_invariant (fun b => b)
      (List.replicate 25 true ++ List.replicate 14 false)).1 (by decide),
   (segmenter_reachable_state_invariant (fun b => b)
      (List.replicate 3 true)).2 (by decide)⟩
